import Mathlib

/-!
Shallow embedding of the core of the 1claw-sdk TypeScript client:
the HTTP transport (`src/http.ts`: token lifecycle with single-flight
refresh, x402 payment negotiation, error classification), the error
taxonomy (`errors.ts`), and the client-side CMEK envelope cipher and
base64 helpers (`cmek.ts`).

JS `number` values reaching the payment policy are finite decimals
(price strings and the `maxAutoPayUsd` config); they are modelled
exactly as `DecNum` (integer mantissa, power-of-ten denominator), with
JS `NaN` represented by `Option.none` where it can arise (the result of
`parseFloat`).  `DecNum` comparisons are proven to agree with the
rational-number order.  Millisecond timestamps are `Int`.  Byte buffers
are `List Nat`.
-/

namespace OneclawSdk

/-! ## Exact decimal model of the JS numbers in the payment path -/

/-- Exact decimal number `mant / 10 ^ exp`.  This represents the JS
`number` values flowing through the payment-policy code (parsed price
strings and the configured `maxAutoPayUsd`) without rounding. -/
structure DecNum where
  mant : Int
  exp : Nat
  deriving DecidableEq, Repr

/-- Rational value denoted by a `DecNum`. -/
def DecNum.toRat (d : DecNum) : ℚ := (d.mant : ℚ) / (10 : ℚ) ^ d.exp

/-- Strict order on `DecNum` by cross-multiplication. -/
def DecNum.blt (a b : DecNum) : Bool :=
  decide (a.mant * (10 : Int) ^ b.exp < b.mant * (10 : Int) ^ a.exp)

/-- JS `=== 0` test on a decimal: the mantissa is zero. -/
def DecNum.isZero (d : DecNum) : Bool := decide (d.mant = 0)

/-- Embedding of the integer literal `0` as a decimal. -/
def DecNum.zero : DecNum := ⟨0, 0⟩

/-- Non-strict order on `DecNum` by cross-multiplication. -/
def DecNum.ble (a b : DecNum) : Bool :=
  decide (a.mant * (10 : Int) ^ b.exp ≤ b.mant * (10 : Int) ^ a.exp)

/-! ## Payment data model (from `src/types.ts`) -/

/-- Field-for-field embedding of `PaymentAccept` (src/types.ts lines 525-531). -/
structure PaymentAccept where
  scheme : String
  network : String
  payTo : String
  price : String
  requiredDeadlineSeconds : Nat
  deriving DecidableEq, Repr

/-- Field-for-field embedding of `PaymentRequirement` (src/types.ts lines
533-537): `accepts` is an ordered sequence of options, the first being
authoritative. -/
structure PaymentRequirement where
  x402Version : Nat
  accepts : List PaymentAccept
  description : String
  deriving DecidableEq, Repr

/-- Field-for-field embedding of `PaymentPayload` (src/types.ts lines
539-544), the JSON object serialized into the `X-PAYMENT` retry header. -/
structure PaymentPayload where
  x402Version : Nat
  scheme : String
  network : String
  payload : String
  deriving DecidableEq, Repr

/-! ## JS `parseFloat` model -/

/-- Value of a digit string, most significant digit first. -/
def digitsToNat (ds : List Char) : Nat :=
  ds.foldl (fun a c => a * 10 + (c.toNat - 48)) 0

/-- Model of the JS builtin `parseFloat` on decimal literals: skip leading
whitespace, read an optional sign and the longest prefix of the form
`digits`, `digits.digits`, `digits.` or `.digits`, ignoring any trailing
characters (JS longest-prefix semantics).  `none` models the JS result
`NaN` (no parseable numeric prefix).  Exponent forms and `Infinity` are
outside the decimal price strings this client handles and are not
modelled. -/
def parseFloat (s : String) : Option DecNum :=
  let cs := s.data.dropWhile (fun c => c = ' ' ∨ c = '\t' ∨ c = '\n' ∨ c = '\r')
  let neg : Bool := match cs with | '-' :: _ => true | _ => false
  let cs₁ := match cs with | '-' :: t => t | '+' :: t => t | _ => cs
  let intDigits := cs₁.takeWhile Char.isDigit
  let rest := cs₁.dropWhile Char.isDigit
  let fracDigits := match rest with
    | '.' :: t => t.takeWhile Char.isDigit
    | _ => []
  if intDigits.isEmpty ∧ fracDigits.isEmpty then none
  else
    let mag : Int := digitsToNat intDigits * 10 ^ fracDigits.length + digitsToNat fracDigits
    some ⟨if neg then -mag else mag, fracDigits.length⟩

/-- JS `>` comparison where the left operand may be `NaN` (`none`):
any comparison against `NaN` is false, as in IEEE-754 / JS. -/
def jsGtNum (p : Option DecNum) (t : DecNum) : Bool :=
  match p with
  | none => false
  | some q => t.blt q

/-! ## Payment negotiation (`HttpClient.handlePayment`, src/http.ts lines 222-266) -/

/-- Model of a thrown `PaymentRequiredError` (errors.ts): the constructor
carries exactly the values interpolated into its message.  `overLimit`
embeds the throw at src/http.ts lines 238-243, whose message names both
the parsed price and the configured limit; `disabled` embeds the throw at
lines 244-249, whose message names the price and instructs the caller to
enable auto-pay via the `maxAutoPayUsd` config.  Both carry the full
requirement, as the `PaymentRequiredError` constructor does. -/
inductive PayErrM where
  | overLimit (price : Option DecNum) (limit : DecNum) (req : PaymentRequirement)
  | disabled (price : Option DecNum) (req : PaymentRequirement)
  deriving DecidableEq, Repr

/-- Outcome of one `handlePayment` call seen from its caller: return the
original response unchanged, throw a `PaymentRequiredError`, or invoke
the signer and issue exactly one retry fetch. -/
inductive PayAction where
  | returnOriginal
  | throwErr (e : PayErrM)
  | signRetry (accept : PaymentAccept) (req : PaymentRequirement)
  deriving DecidableEq, Repr

/-- Embedding of `HttpClient.handlePayment` (src/http.ts lines 222-249) up
to the decision of what to do.  `body` is the result of
`originalRes.json()` parsed as a `PaymentRequirement` (`none` when the
body is unparsable and the `catch` at line 230 fires); `hasSigner`
reflects `this.signer` being set; `maxAutoPayUsd` is the configured
threshold (a JS number, defaulted to 0 by the constructor).  The price is
`parseFloat accept.price` and may be `NaN` (`none`); the guard order is
the source's: the over-limit check (line 238) runs before the
disabled-check (line 244). -/
def handlePayment (body : Option PaymentRequirement) (hasSigner : Bool)
    (maxAutoPayUsd : DecNum) : PayAction :=
  match body with
  | none => .returnOriginal
  | some requirement =>
    match requirement.accepts.head? with
    | none => .returnOriginal
    | some accept =>
      if hasSigner = false then .returnOriginal
      else
        let price := parseFloat accept.price
        if DecNum.zero.blt maxAutoPayUsd = true ∧ jsGtNum price maxAutoPayUsd = true then
          .throwErr (.overLimit price maxAutoPayUsd requirement)
        else if maxAutoPayUsd.isZero = true then
          .throwErr (.disabled price requirement)
        else
          .signRetry accept requirement

/-! ## Request dispatch and error classification -/

/-- Abstraction of a fetch `Response` as the transport consumes it: its
HTTP status and its body parsed as a payment requirement (`none` when
`res.json()` would throw or not produce one). -/
structure Response where
  status : Nat
  paymentBody : Option PaymentRequirement
  deriving DecidableEq, Repr

/-- JS `Response.ok`: status in the inclusive range 200-299. -/
def Response.ok (r : Response) : Bool :=
  decide (200 ≤ r.status ∧ r.status ≤ 299)

/-- Status-to-error-type mapping of `errorFromResponse` (errors.ts lines
219-259): the `type` string carried by the constructed error class. -/
def errorTypeOfStatus (st : Nat) : String :=
  if st = 400 then "validation_error"
  else if st = 401 ∨ st = 403 then "auth_error"
  else if st = 402 then "payment_required"
  else if st = 404 then "not_found"
  else if st = 429 then "rate_limit"
  else if 500 ≤ st then "server_error"
  else "unknown"

/-- Final outcome of `HttpClient.request`: a success envelope, an error
envelope built by `errorFromResponse` classification, or a
`PaymentRequiredError` raised out of `handlePayment` (which `request`
does not catch). -/
inductive ReqResult where
  | success (status : Nat)
  | failure (status : Nat) (errType : String)
  | raised (e : PayErrM)
  deriving DecidableEq, Repr

/-- Classification tail of `HttpClient.request` (src/http.ts lines
131-153): a non-ok response becomes an error envelope whose type comes
from `errorFromResponse`; an ok response becomes a success envelope. -/
def classifyResponse (r : Response) : ReqResult :=
  if r.ok then .success r.status else .failure r.status (errorTypeOfStatus r.status)

/-- Observable trace of one `HttpClient.request` call: which response was
classified into the final result, how often the signer was invoked, how
many payment retries were fetched, and the retry's payment header. -/
structure ReqTrace where
  finalResponse : Option Response
  result : ReqResult
  signerCalls : Nat
  paymentRetries : Nat
  retryHeaderName : Option String
  retryPayload : Option PaymentPayload
  deriving DecidableEq, Repr

/-- Embedding of `HttpClient.request` (src/http.ts lines 101-154) from the
point where the first fetch has returned `first`.  When the status is 402
and a signer is configured (line 127), `handlePayment` runs once; its
`signRetry` branch invokes the signer, attaches the JSON-serialized
payment payload in the `X-PAYMENT` header (lines 251-265) and performs
exactly one retry fetch, whose response `retryRes` then flows into the
ordinary classification - the 402-check is not re-entered.  `signPayment`
is the injected signer oracle (`X402Signer.signPayment`). -/
def requestModel (first retryRes : Response) (hasSigner : Bool)
    (maxAutoPayUsd : DecNum) (signPayment : PaymentAccept → String) : ReqTrace :=
  if first.status = 402 ∧ hasSigner = true then
    match handlePayment first.paymentBody hasSigner maxAutoPayUsd with
    | .returnOriginal =>
        ⟨some first, classifyResponse first, 0, 0, none, none⟩
    | .throwErr e =>
        ⟨none, .raised e, 0, 0, none, none⟩
    | .signRetry accept req =>
        ⟨some retryRes, classifyResponse retryRes, 1, 1, some "X-PAYMENT",
          some ⟨req.x402Version, accept.scheme, accept.network, signPayment accept⟩⟩
  else
    ⟨some first, classifyResponse first, 0, 0, none, none⟩

example : parseFloat "0.50" = some ⟨50, 2⟩ := by decide
example : parseFloat "5.00" = some ⟨500, 2⟩ := by decide
example : parseFloat "free" = none := by decide
example : parseFloat "  -3.25extra" = some ⟨-325, 2⟩ := by decide
example : parseFloat ".5" = some ⟨5, 1⟩ := by decide
example : (DecNum.mk 50 2).blt ⟨10, 1⟩ = true := by decide
example : jsGtNum (parseFloat "5.00") ⟨10, 1⟩ = true := by decide


/-! ## CMEK envelope cipher (`cmek.ts`) -/

/-- Error cases of `cmekDecrypt`: `tooShort` embeds the throw
`"CMEK blob too short"` at cmek.ts line 79 (a format error on blobs
shorter than version+IV+tag); `badVersion b` embeds the throw
`"Unsupported CMEK version: b"` at line 82; `authFail` embeds a rejection
of `crypto.subtle.decrypt` (GCM tag verification failure). -/
inductive CmekError where
  | tooShort
  | badVersion (b : Nat)
  | authFail
  deriving DecidableEq, Repr

/-- Abstract interface of the platform AES-256-GCM primitive
(`crypto.subtle.encrypt` / `crypto.subtle.decrypt` with
`{ name: "AES-GCM", iv }`): `enc iv key pt` returns the ciphertext
immediately followed by the 16-byte auth tag, exactly as WebCrypto
concatenates them, and `dec` fails on tag mismatch.  The repository code
treats these calls as an opaque collaborator and never inspects their
internals. -/
structure AeadGcm where
  enc : List Nat → List Nat → List Nat → List Nat
  dec : List Nat → List Nat → List Nat → Except Unit (List Nat)

/-- Constant `VERSION_BYTE = 0x01` (cmek.ts line 13). -/
def VERSION_BYTE : Nat := 1

/-- Constant `IV_LENGTH = 12` (cmek.ts line 14). -/
def IV_LENGTH : Nat := 12

/-- Embedding of `cmekEncrypt` (cmek.ts lines 42-68): allocate
`1 + IV_LENGTH + ciphertext.byteLength` bytes, put the version byte at
offset 0, the freshly generated random 12-byte IV at offset 1, and the
AEAD output (ciphertext ‖ tag) at offset 13.  The random IV produced by
`crypto.getRandomValues` on a 12-byte buffer is passed in as `iv`. -/
def cmekEncrypt (A : AeadGcm) (iv plaintext keyBytes : List Nat) : List Nat :=
  VERSION_BYTE :: (iv ++ A.enc iv keyBytes plaintext)

/-- Embedding of `cmekDecrypt` (cmek.ts lines 74-103): reject blobs
shorter than `1 + IV_LENGTH + 16`, then reject a version byte other than
`VERSION_BYTE`, then split the IV (`blob.slice(1, 13)`) and ciphertext
(`blob.slice(13)`) at fixed offsets and run AEAD decryption. -/
def cmekDecrypt (A : AeadGcm) (blob keyBytes : List Nat) : Except CmekError (List Nat) :=
  if blob.length < 1 + IV_LENGTH + 16 then .error .tooShort
  else if blob.headD 0 ≠ VERSION_BYTE then .error (.badVersion (blob.headD 0))
  else
    let iv := (blob.drop 1).take IV_LENGTH
    let ciphertext := blob.drop (1 + IV_LENGTH)
    match A.dec iv keyBytes ciphertext with
    | .ok pt => .ok pt
    | .error _ => .error .authFail

/-- AEAD fixture used only to instantiate witness theorems: appends a
16-byte all-zero tag and strips it on decryption.  On any one input it
satisfies the round-trip and length laws that the real AES-GCM provides. -/
def padAead : AeadGcm where
  enc := fun _ _ pt => pt ++ List.replicate 16 0
  dec := fun _ _ ct => if 16 ≤ ct.length then .ok (ct.take (ct.length - 16)) else .error ()


/-! ## Base64 transport decoding (`cmek.ts` lines 124-134) -/

/-- Base64 decoding failures of the browser (`atob`) path: `atob` throws
`InvalidCharacterError` on characters outside the standard alphabet or on
a malformed length. -/
inductive B64Error where
  | invalidChar
  | badLength
  deriving DecidableEq, Repr

/-- Value of one base64 alphabet character.  With `urlSafe` the URL-safe
variants `-` and `_` are also accepted (Node's decoder accepts both
alphabets); `atob` accepts only the standard alphabet. -/
def b64CharVal (urlSafe : Bool) (c : Char) : Option Nat :=
  if 'A' ≤ c ∧ c ≤ 'Z' then some (c.toNat - 65)
  else if 'a' ≤ c ∧ c ≤ 'z' then some (c.toNat - 97 + 26)
  else if '0' ≤ c ∧ c ≤ '9' then some (c.toNat - 48 + 52)
  else if c = '+' ∨ (urlSafe = true ∧ c = '-') then some 62
  else if c = '/' ∨ (urlSafe = true ∧ c = '_') then some 63
  else none

/-- Reassemble bytes from a sequence of 6-bit values: complete groups of
four values give three bytes; a trailing pair gives one byte and a
trailing triple gives two bytes (standard base64 bit packing); a single
trailing value carries fewer than 8 bits and yields nothing. -/
def b64DecodeVals : List Nat → List Nat
  | a :: b :: c :: d :: rest =>
      (a * 4 + b / 16) :: ((b % 16) * 16 + c / 4) :: ((c % 4) * 64 + d) ::
        b64DecodeVals rest
  | [a, b] => [a * 4 + b / 16]
  | [a, b, c] => [a * 4 + b / 16, (b % 16) * 16 + c / 4]
  | _ => []

/-- Values of the longest prefix of characters that are base64 alphabet
characters (either alphabet); decoding input stops at the first other
character (including `=` padding and whitespace). -/
def validPrefixVals : List Char → List Nat
  | [] => []
  | c :: rest =>
    match b64CharVal true c with
    | some v => v :: validPrefixVals rest
    | none => []

/-- Model of the Node path `Buffer.from(b64, "base64")`: a forgiving
decoder that never throws - it decodes the longest valid prefix
(accepting both alphabets), ignores everything from the first invalid
character on, and silently drops a trailing lone character.  In
particular malformed input yields a (possibly empty) byte buffer, never
an error. -/
def bufferBase64Decode (s : String) : List Nat :=
  b64DecodeVals (validPrefixVals s.data)

/-- Model of the browser builtin `atob` composed with the byte-copy loop
at cmek.ts lines 128-133, following the WHATWG forgiving-base64 spec:
strip ASCII whitespace; if the length is a multiple of 4, strip up to two
trailing `=`; then reject a remaining length of 1 mod 4 and reject any
character outside the standard alphabet; otherwise decode.  The
`charCodeAt` copy loop is the identity on the decoded byte values. -/
def atobDecode (s : String) : Except B64Error (List Nat) :=
  let cs := s.data.filter
    (fun c => ¬(c = ' ' ∨ c = '\t' ∨ c = '\n' ∨ c = '\x0c' ∨ c = '\r'))
  let cs₁ :=
    if cs.length % 4 = 0 then
      if cs.getLast? = some '=' then
        let cs' := cs.dropLast
        if cs'.getLast? = some '=' then cs'.dropLast else cs'
      else cs
    else cs
  if cs₁.length % 4 = 1 then .error .badLength
  else
    match cs₁.mapM (b64CharVal false) with
    | none => .error .invalidChar
    | some vs => .ok (b64DecodeVals vs)

/-- Embedding of `fromBase64` (cmek.ts lines 124-134): when `Buffer` is
defined (Node 18+), decode through `Buffer.from(b64, "base64")`, which
never rejects; otherwise decode through `atob`, whose throw on invalid
input propagates out of `fromBase64`. -/
def fromBase64 (hasBuffer : Bool) (b64 : String) : Except B64Error (List Nat) :=
  if hasBuffer then .ok (bufferBase64Decode b64)
  else atobDecode b64


/-! ## Credential store: single-flight refresh (`src/http.ts` lines 13-94) -/

/-- Outcome of one token-exchange network call
(`POST /v1/auth/agent-token`, src/http.ts lines 72-88): on `res.ok` the
response body supplies `access_token` and `expires_in` (integer seconds);
on a non-success status the code throws. -/
inductive ExchangeOutcome where
  | success (accessToken : String) (expiresIn : Int)
  | failure (status : Nat)
  deriving DecidableEq, Repr

/-- Model of a thrown JS error value: its `name`, its `message`, and the
`type` property carried by `OneclawError` subclasses (`none` for a plain
`Error`, which has no such property). -/
structure JsError where
  name : String
  message : String
  errType : Option String
  deriving DecidableEq, Repr

/-- The error thrown at src/http.ts line 83 when the exchange endpoint
returns a non-success status: a plain `Error` whose message names the
status, with no `type` property. -/
def refreshFailureError (status : Nat) : JsError :=
  ⟨"Error", "Agent token refresh failed: HTTP " ++ toString status, none⟩

/-- Construction of `AuthError` (errors.ts lines 131-136): it sets
`name = "AuthError"` and `type = "auth_error"`. -/
def mkAuthError (message : String) : JsError :=
  ⟨"AuthError", message, some "auth_error"⟩

/-- The error value a caller of `ensureToken` observes for a given
exchange outcome: nothing on success, the plain refresh-failure `Error`
on failure (the rejection of the shared `refreshPromise`). -/
def propagatedError : ExchangeOutcome → Option JsError
  | .success _ _ => none
  | .failure st => some (refreshFailureError st)

/-- Whether an error value is of the `AuthFailure` kind of the error
taxonomy, i.e. carries `type = "auth_error"` as `AuthError` does. -/
def isAuthFailureKind (e : JsError) : Bool :=
  decide (e.errType = some "auth_error")

/-- State of one logical caller of `ensureToken` (every `request` /
`requestOrThrow` begins with `await this.ensureToken()`).  `idle`: not
yet entered; `waiting h`: suspended on `await this.refreshPromise` for
the in-flight refresh `h` (src/http.ts lines 67-70); `inExchange h`:
installed refresh `h` and is suspended on the exchange fetch (lines
72-80); `doneFast`: returned synchronously (no exchange credentials
configured, or cached token still fresh); `doneEx h o`: completed by
observing outcome `o` of refresh `h`. -/
inductive CallerSt where
  | idle
  | waiting (h : Nat)
  | inExchange (h : Nat)
  | doneFast
  | doneEx (h : Nat) (o : ExchangeOutcome)
  deriving DecidableEq, Repr

/-- Whole-client state for the cooperative-concurrency model of
`HttpClient`: the store fields `token`, `tokenExpiresAt` (ms) and
`refreshPromise` (identified by an index into `handles`), the settlement
state of every refresh promise created so far (`none` = pending), one
state per logical caller, a counter of exchange network calls started,
the `agentCredentials` configuration flag, and the `Date.now()` clock. -/
structure ClientState where
  hasCreds : Bool
  token : Option String
  tokenExpiresAt : Int
  refresh : Option Nat
  handles : List (Option ExchangeOutcome)
  callers : List CallerSt
  exchangesStarted : Nat
  now : Int
  deriving DecidableEq, Repr

/-- Constant `REFRESH_BUFFER_MS = 60_000` (src/http.ts line 22). -/
def REFRESH_BUFFER_MS : Int := 60000

/-- The freshness check at src/http.ts line 65:
`this.token && Date.now() < this.tokenExpiresAt - REFRESH_BUFFER_MS`. -/
def tokenFresh (s : ClientState) : Bool :=
  s.token.isSome && decide (s.now < s.tokenExpiresAt - REFRESH_BUFFER_MS)

/-- Interleaving events of the cooperative (single-threaded, suspend at
awaits) scheduler: `start i` runs the synchronous prefix of `ensureToken`
for caller `i` - the credential check, the freshness check, the
`refreshPromise` check, and, when no refresh is in flight, installing
`this.refreshPromise` and initiating the exchange fetch; JS executes all
of this without an intervening suspension point (src/http.ts lines
63-80), so it is one atomic step.  `complete i o` settles caller `i`'s
exchange fetch with outcome `o` and runs the rest of the async body plus
the `finally` that clears `this.refreshPromise` (lines 82-91).  `wake i`
resumes a caller that awaited a now-settled `refreshPromise`.  `tick d`
advances `Date.now()`. -/
inductive Act where
  | start (i : Nat)
  | complete (i : Nat) (o : ExchangeOutcome)
  | wake (i : Nat)
  | tick (d : Int)
  deriving DecidableEq, Repr

/-- One scheduler step of the model (a no-op when the event does not
apply to the caller's current state).  `start`: lines 63-80 - return fast
without credentials or with a fresh token; join an in-flight refresh;
otherwise install a fresh `refreshPromise` handle and start the exchange.
`complete`: on success install the token and
`Date.now() + expires_in * 1000` (lines 86-88); in both cases settle the
promise, clear `refreshPromise` (the `finally`, lines 89-91) and complete
the owner with the outcome.  `wake`: a waiter of a settled promise
observes that promise's outcome. -/
def stepFn (s : ClientState) (a : Act) : ClientState :=
  match a with
  | .start i =>
    match s.callers[i]? with
    | some .idle =>
      if s.hasCreds = false then
        { s with callers := s.callers.set i .doneFast }
      else if tokenFresh s then
        { s with callers := s.callers.set i .doneFast }
      else
        match s.refresh with
        | some h => { s with callers := s.callers.set i (.waiting h) }
        | none =>
          { s with
            refresh := some s.handles.length
            handles := s.handles ++ [none]
            callers := s.callers.set i (.inExchange s.handles.length)
            exchangesStarted := s.exchangesStarted + 1 }
    | _ => s
  | .complete i o =>
    match s.callers[i]? with
    | some (.inExchange h) =>
      match o with
      | .success tok expiresIn =>
        { s with
          handles := s.handles.set h (some o)
          token := some tok
          tokenExpiresAt := s.now + expiresIn * 1000
          refresh := none
          callers := s.callers.set i (.doneEx h o) }
      | .failure _ =>
        { s with
          handles := s.handles.set h (some o)
          refresh := none
          callers := s.callers.set i (.doneEx h o) }
    | _ => s
  | .wake i =>
    match s.callers[i]? with
    | some (.waiting h) =>
      match s.handles[h]? with
      | some (some o) => { s with callers := s.callers.set i (.doneEx h o) }
      | _ => s
    | _ => s
  | .tick d => { s with now := s.now + d }

/-- Run a sequence of interleaving events. -/
def run (s : ClientState) (l : List Act) : ClientState := l.foldl stepFn s

/-- Initial client state: `n` idle callers, no refresh in flight, no
promises created yet, no exchange started yet. -/
def initState (hasCreds : Bool) (token : Option String) (expiry now : Int)
    (n : Nat) : ClientState :=
  ⟨hasCreds, token, expiry, none, [], List.replicate n .idle, 0, now⟩

/-- Reachability from a state by some interleaving. -/
def Reachable (s₀ s : ClientState) : Prop := ∃ l, s = run s₀ l

/-- At most one exchange network call is in flight at any time. -/
def AtMostOneInFlight (s : ClientState) : Prop :=
  ∀ (i j hi hj : Nat), s.callers[i]? = some (.inExchange hi) →
    s.callers[j]? = some (.inExchange hj) → i = j

/-- The caller of an in-flight exchange owns the installed
`refreshPromise`, and that promise is still pending. -/
def OwnerInv (s : ClientState) : Prop :=
  ∀ (i h : Nat), s.callers[i]? = some (.inExchange h) →
    s.refresh = some h ∧ s.handles[h]? = some none

/-- Every caller that completed through a refresh observed the settled
outcome recorded on that refresh's shared promise. -/
def DoneInv (s : ClientState) : Prop :=
  ∀ (i h : Nat) (o : ExchangeOutcome),
    s.callers[i]? = some (.doneEx h o) → s.handles[h]? = some (some o)

/-- Combined invariant of the refresh machinery. -/
def Inv (s : ClientState) : Prop := AtMostOneInFlight s ∧ OwnerInv s ∧ DoneInv s

/-! ## Token expiry parsing (`decodeExpiry` / `setToken`, src/http.ts lines 39-61) -/

/-- Result of reading `payload.exp` after `JSON.parse` in JS terms:
`num e` when `typeof payload.exp === "number"` (the claim value in
seconds), `other` for any other value (including an absent property). -/
inductive JsExpVal where
  | num (e : Int)
  | other
  deriving DecidableEq, Repr

/-- Model of JS `jwt.split(".")`: split a character list at every dot,
keeping empty segments, as `String.prototype.split` does with a one-char
separator. -/
def splitOnDot (cs : List Char) : List (List Char) :=
  match cs with
  | [] => [[]]
  | c :: rest =>
    let r := splitOnDot rest
    if c = '.' then [] :: r
    else
      match r with
      | [] => [[c]]
      | hd :: tl => (c :: hd) :: tl

/-- Embedding of `HttpClient.decodeExpiry` (src/http.ts lines 52-61),
parameterized by the platform builtins it calls: `atobF` models `atob`
(`none` when it throws) and `jsonExpF` models `JSON.parse` of the decoded
payload projected onto its `exp` property (`none` when `JSON.parse`
throws).  The code splits on ".", requires exactly 3 parts, replaces the
base64url characters `-` and `_` in the payload part, and returns
`exp * 1000` for a numeric `exp` - and `0` on every failure (wrong part
count, a throw swallowed by the `catch`, or a non-number `exp`). -/
def decodeExpiry (atobF : String → Option String)
    (jsonExpF : String → Option JsExpVal) (jwt : String) : Int :=
  let parts := splitOnDot jwt.data
  if parts.length ≠ 3 then 0
  else
    let norm := String.mk ((parts.getD 1 []).map
      (fun c => if c = '-' then '+' else if c = '_' then '/' else c))
    match atobF norm with
    | none => 0
    | some payload =>
      match jsonExpF payload with
      | none => 0
      | some (.num e) => e * 1000
      | some .other => 0

/-- The token parses as a JWT with a numeric `exp` claim under the given
platform oracles: exactly 3 dot-separated parts, a decodable payload, and
a numeric `exp`. -/
def jwtExpParses (atobF : String → Option String)
    (jsonExpF : String → Option JsExpVal) (jwt : String) : Prop :=
  (splitOnDot jwt.data).length = 3 ∧
  ∃ payload e,
    atobF (String.mk (((splitOnDot jwt.data).getD 1 []).map
      (fun c => if c = '-' then '+' else if c = '_' then '/' else c))) = some payload ∧
    jsonExpF payload = some (.num e)

/-- Embedding of `HttpClient.setToken` (src/http.ts lines 39-42):
unconditionally replace the cached token and recompute its expiry with
`decodeExpiry`. -/
def setToken (atobF : String → Option String)
    (jsonExpF : String → Option JsExpVal) (s : ClientState)
    (tok : String) : ClientState :=
  { s with token := some tok, tokenExpiresAt := decodeExpiry atobF jsonExpF tok }


/-! ## Concrete fixtures used by witness theorems -/

/-- Payment option fixture whose price string parses to 0.50. -/
def acceptW : PaymentAccept := ⟨"exact", "base", "0xpayee", "0.50", 300⟩

/-- Payment requirement fixture with a single 0.50 option. -/
def reqW : PaymentRequirement := ⟨1, [acceptW], "pay to proceed"⟩

/-- Payment option fixture whose price string does not parse (JS `NaN`). -/
def acceptNaN : PaymentAccept := ⟨"exact", "base", "0xpayee", "free", 300⟩

/-- Payment requirement fixture with a single unparsable-price option. -/
def reqNaN : PaymentRequirement := ⟨1, [acceptNaN], "pay to proceed"⟩

/-! ## Theorems -/

theorem DecNum.blt_iff_toRat_lt (a b : DecNum) :
    a.blt b = true ↔ a.toRat < b.toRat := by
  unfold DecNum.blt DecNum.toRat
  rw [decide_eq_true_iff, div_lt_div_iff₀ (by positivity) (by positivity)]
  constructor
  · intro h
    have : ((a.mant * 10 ^ b.exp : Int) : ℚ) < ((b.mant * 10 ^ a.exp : Int) : ℚ) := by
      exact_mod_cast h
    push_cast at this
    convert this using 1
  · intro h
    have : ((a.mant * 10 ^ b.exp : Int) : ℚ) < ((b.mant * 10 ^ a.exp : Int) : ℚ) := by
      push_cast
      convert h using 1
    exact_mod_cast this

theorem DecNum.isZero_iff_toRat_eq_zero (d : DecNum) :
    d.isZero = true ↔ d.toRat = 0 := by
  unfold DecNum.isZero DecNum.toRat
  rw [decide_eq_true_iff]
  constructor
  · intro h; rw [h]; simp
  · intro h
    have h10 : ((10 : ℚ) ^ d.exp) ≠ 0 := by positivity
    have := (div_eq_zero_iff.mp h).resolve_right h10
    exact_mod_cast this


theorem DecNum.ble_iff_toRat_le (a b : DecNum) :
    a.ble b = true ↔ a.toRat ≤ b.toRat := by
  rw [← not_lt, ← DecNum.blt_iff_toRat_lt b a]
  unfold DecNum.ble DecNum.blt
  simp [not_lt]

theorem DecNum.zero_toRat : DecNum.zero.toRat = 0 := by
  simp [DecNum.zero, DecNum.toRat]

theorem DecNum.pos_iff (d : DecNum) :
    DecNum.zero.blt d = true ↔ 0 < d.toRat := by
  rw [DecNum.blt_iff_toRat_lt, DecNum.zero_toRat]

theorem DecNum.neg_iff (d : DecNum) :
    d.blt DecNum.zero = true ↔ d.toRat < 0 := by
  rw [DecNum.blt_iff_toRat_lt, DecNum.zero_toRat]

theorem jsGtNum_true_iff (p : Option DecNum) (t : DecNum) :
    jsGtNum p t = true ↔ ∃ q, p = some q ∧ t.toRat < q.toRat := by
  cases p with
  | none => simp [jsGtNum]
  | some q => simp [jsGtNum, DecNum.blt_iff_toRat_lt]

theorem DecNum.blt_eq_false_of_le {a b : DecNum} (h : b.toRat ≤ a.toRat) :
    a.blt b = false := by
  cases hc : a.blt b with
  | false => rfl
  | true => exact absurd ((DecNum.blt_iff_toRat_lt a b).mp hc) (not_lt.mpr h)

theorem DecNum.isZero_eq_false_of_pos {d : DecNum} (h : 0 < d.toRat) :
    d.isZero = false := by
  cases hc : d.isZero with
  | false => rfl
  | true =>
    have := (DecNum.isZero_iff_toRat_eq_zero d).mp hc
    exact absurd h (by rw [this]; exact lt_irrefl 0)

theorem DecNum.toRat_nonpos_of_blt_false {d : DecNum}
    (h : DecNum.zero.blt d = false) : d.toRat ≤ 0 := by
  by_contra hc
  push_neg at hc
  rw [(DecNum.pos_iff d).mpr hc] at h
  exact Bool.noConfusion h

theorem DecNum.toRat_ne_zero_of_isZero_false {d : DecNum}
    (h : d.isZero = false) : d.toRat ≠ 0 := by
  intro hc
  rw [(DecNum.isZero_iff_toRat_eq_zero d).mpr hc] at h
  exact Bool.noConfusion h

/-- Branch resolution of `handlePayment` once the body has parsed and the
first option is selected (src/http.ts lines 234-249). -/
theorem handlePayment_resolve (req : PaymentRequirement) (accept : PaymentAccept)
    (limit : DecNum) (hhead : req.accepts.head? = some accept) :
    handlePayment (some req) true limit =
      (if DecNum.zero.blt limit = true ∧ jsGtNum (parseFloat accept.price) limit = true then
        .throwErr (.overLimit (parseFloat accept.price) limit req)
      else if limit.isZero = true then
        .throwErr (.disabled (parseFloat accept.price) req)
      else
        .signRetry accept req) := by
  simp only [handlePayment, hhead]
  simp

/-- Resolution of `requestModel` on a 402 first response with a signer. -/
theorem requestModel_resolve (first retryRes : Response) (limit : DecNum)
    (sign : PaymentAccept → String) (h402 : first.status = 402) :
    requestModel first retryRes true limit sign =
      (match handlePayment first.paymentBody true limit with
       | .returnOriginal => ⟨some first, classifyResponse first, 0, 0, none, none⟩
       | .throwErr e => ⟨none, .raised e, 0, 0, none, none⟩
       | .signRetry accept req =>
          ⟨some retryRes, classifyResponse retryRes, 1, 1, some "X-PAYMENT",
            some ⟨req.x402Version, accept.scheme, accept.network, sign accept⟩⟩) := by
  unfold requestModel
  rw [h402]
  simp

/-- Shared helper: trace of a request whose payment negotiation passes the
policy bound and signs and retries. -/
theorem signRetry_trace (first retryRes : Response) (limit : DecNum)
    (sign : PaymentAccept → String) (req : PaymentRequirement)
    (accept : PaymentAccept) (p : DecNum)
    (h402 : first.status = 402) (hbody : first.paymentBody = some req)
    (hhead : req.accepts.head? = some accept)
    (hp : parseFloat accept.price = some p)
    (hpos : 0 < limit.toRat) (hle : p.toRat ≤ limit.toRat) :
    requestModel first retryRes true limit sign =
      ⟨some retryRes, classifyResponse retryRes, 1, 1, some "X-PAYMENT",
        some ⟨req.x402Version, accept.scheme, accept.network, sign accept⟩⟩ := by
  have hres := handlePayment_resolve req accept limit hhead
  have hrm := requestModel_resolve first retryRes limit sign h402
  rw [hbody] at hrm
  have hgtB : jsGtNum (parseFloat accept.price) limit = false := by
    rw [hp]
    simp only [jsGtNum]
    exact DecNum.blt_eq_false_of_le hle
  have hzB : limit.isZero = false := DecNum.isZero_eq_false_of_pos hpos
  rw [hgtB, hzB] at hres
  simp at hres
  rw [hrm, hres]

/-- Evaluation of the classification tail at a 402 response. -/
theorem classify_402 (r : Response) (h : r.status = 402) :
    classifyResponse r = .failure 402 "payment_required" := by
  unfold classifyResponse Response.ok errorTypeOfStatus
  rw [h]
  simp

/-- Claim C2: for a payment-required (402) response with a configured signer
and a parseable requirement whose first option's price parses to `p`: with
auto-pay threshold 0, a `PaymentRequiredError` naming the price (and
instructing the caller to enable auto-pay) is raised and the signer is
never invoked (`signerCalls = 0`); with a positive threshold and `p` above
it, a `PaymentRequiredError` naming both the price and the threshold is
raised and the signer is never invoked; with a positive threshold and `p`
within it, the signer is invoked and the request is retried (exactly one
retry, carrying the `X-PAYMENT` header). -/
theorem autoPay_threshold_policy
    (first retryRes : Response) (limit : DecNum) (sign : PaymentAccept → String)
    (req : PaymentRequirement) (accept : PaymentAccept) (p : DecNum)
    (h402 : first.status = 402) (hbody : first.paymentBody = some req)
    (hhead : req.accepts.head? = some accept)
    (hp : parseFloat accept.price = some p) :
    (limit.toRat = 0 →
      requestModel first retryRes true limit sign =
        ⟨none, .raised (.disabled (some p) req), 0, 0, none, none⟩) ∧
    (0 < limit.toRat → limit.toRat < p.toRat →
      requestModel first retryRes true limit sign =
        ⟨none, .raised (.overLimit (some p) limit req), 0, 0, none, none⟩) ∧
    (0 < limit.toRat → p.toRat ≤ limit.toRat →
      requestModel first retryRes true limit sign =
        ⟨some retryRes, classifyResponse retryRes, 1, 1, some "X-PAYMENT",
          some ⟨req.x402Version, accept.scheme, accept.network, sign accept⟩⟩) := by
  have hres := handlePayment_resolve req accept limit hhead
  have hrm := requestModel_resolve first retryRes limit sign h402
  rw [hbody] at hrm
  refine ⟨?_, ?_, ?_⟩
  · intro hz
    have hzB : limit.isZero = true := (DecNum.isZero_iff_toRat_eq_zero limit).mpr hz
    have hnB : DecNum.zero.blt limit = false := by
      cases hc : DecNum.zero.blt limit with
      | false => rfl
      | true => exact absurd ((DecNum.pos_iff limit).mp hc) (by rw [hz]; exact lt_irrefl 0)
    rw [hnB, hzB] at hres
    simp at hres
    rw [hrm, hres, hp]
  · intro hpos hover
    have hposB : DecNum.zero.blt limit = true := (DecNum.pos_iff limit).mpr hpos
    have hgtB : jsGtNum (parseFloat accept.price) limit = true := by
      rw [hp]
      exact (jsGtNum_true_iff (some p) limit).mpr ⟨p, rfl, hover⟩
    rw [hposB, hgtB] at hres
    simp at hres
    rw [hrm, hres, hp]
  · intro hpos hle
    exact signRetry_trace first retryRes limit sign req accept p
      h402 hbody hhead hp hpos hle

/-- Witness for claim C2: with price "0.50" and threshold 1.0, the signer is
invoked and exactly one retry with the `X-PAYMENT` header is issued. -/
theorem autoPay_threshold_policy_witness :
    requestModel ⟨402, some reqW⟩ ⟨200, none⟩ true ⟨1, 0⟩ (fun _ => "sig") =
      ⟨some ⟨200, none⟩, classifyResponse ⟨200, none⟩, 1, 1, some "X-PAYMENT",
        some ⟨1, "exact", "base", "sig"⟩⟩ :=
  (autoPay_threshold_policy ⟨402, some reqW⟩ ⟨200, none⟩ ⟨1, 0⟩ (fun _ => "sig")
      reqW acceptW ⟨50, 2⟩ rfl rfl rfl (by decide)).2.2
    ((DecNum.pos_iff ⟨1, 0⟩).mp (by decide))
    ((DecNum.ble_iff_toRat_le ⟨50, 2⟩ ⟨1, 0⟩).mp (by decide))

/-- Claim C4: when the first response is 402 and negotiation passes the
policy bound, the original request is re-issued exactly once with the
payment proof in the `X-PAYMENT` header, and the outcome of that single
retry is the final response; a second 402 on the retried response is
classified as an ordinary error and never triggers another payment
attempt or retry. -/
theorem payment_retry_once
    (first retryRes : Response) (limit : DecNum) (sign : PaymentAccept → String)
    (req : PaymentRequirement) (accept : PaymentAccept) (p : DecNum)
    (h402 : first.status = 402) (hbody : first.paymentBody = some req)
    (hhead : req.accepts.head? = some accept)
    (hp : parseFloat accept.price = some p)
    (hpos : 0 < limit.toRat) (hle : p.toRat ≤ limit.toRat) :
    requestModel first retryRes true limit sign =
      ⟨some retryRes, classifyResponse retryRes, 1, 1, some "X-PAYMENT",
        some ⟨req.x402Version, accept.scheme, accept.network, sign accept⟩⟩ ∧
    (retryRes.status = 402 →
      (requestModel first retryRes true limit sign).result =
          .failure 402 "payment_required" ∧
      (requestModel first retryRes true limit sign).paymentRetries = 1 ∧
      (requestModel first retryRes true limit sign).signerCalls = 1) := by
  have ht := signRetry_trace first retryRes limit sign req accept p
    h402 hbody hhead hp hpos hle
  refine ⟨ht, fun h4 => ?_⟩
  rw [ht, classify_402 retryRes h4]
  exact ⟨rfl, rfl, rfl⟩

/-- Witness for claim C4: the retried response itself returns 402; the final
result is an ordinary payment-required error envelope and exactly one
retry and one signer call happened. -/
theorem payment_retry_once_witness :
    (requestModel ⟨402, some reqW⟩ ⟨402, none⟩ true ⟨1, 0⟩ (fun _ => "sig")).result =
        .failure 402 "payment_required" ∧
    (requestModel ⟨402, some reqW⟩ ⟨402, none⟩ true ⟨1, 0⟩
        (fun _ => "sig")).paymentRetries = 1 ∧
    (requestModel ⟨402, some reqW⟩ ⟨402, none⟩ true ⟨1, 0⟩
        (fun _ => "sig")).signerCalls = 1 :=
  (payment_retry_once ⟨402, some reqW⟩ ⟨402, none⟩ ⟨1, 0⟩ (fun _ => "sig")
      reqW acceptW ⟨50, 2⟩ rfl rfl rfl (by decide)
      ((DecNum.pos_iff ⟨1, 0⟩).mp (by decide))
      ((DecNum.ble_iff_toRat_le ⟨50, 2⟩ ⟨1, 0⟩).mp (by decide))).2 rfl

/-- Claim C8: a 402 response whose body is unparsable, or whose requirement
has no options, fails open: the original unmodified response is returned
and classified normally (a payment-required error envelope), the signer is
never called, and no retry is issued. -/
theorem payment_fail_open
    (first retryRes : Response) (limit : DecNum) (sign : PaymentAccept → String)
    (h402 : first.status = 402)
    (hbad : first.paymentBody = none ∨
      ∃ req, first.paymentBody = some req ∧ req.accepts = []) :
    requestModel first retryRes true limit sign =
      ⟨some first, .failure 402 "payment_required", 0, 0, none, none⟩ := by
  have hrm := requestModel_resolve first retryRes limit sign h402
  have hhp : handlePayment first.paymentBody true limit = .returnOriginal := by
    rcases hbad with hnone | ⟨req, hsome, hacc⟩
    · rw [hnone]
      rfl
    · rw [hsome]
      simp [handlePayment, hacc]
  rw [hrm, hhp]
  show ReqTrace.mk (some first) (classifyResponse first) 0 0 none none = _
  rw [classify_402 first h402]

/-- Witness for claim C8: an unparsable 402 body surfaces the original
response as an ordinary payment-required error with no signing and no
retry. -/
theorem payment_fail_open_witness :
    requestModel ⟨402, none⟩ ⟨200, none⟩ true ⟨1, 0⟩ (fun _ => "sig") =
      ⟨some ⟨402, none⟩, .failure 402 "payment_required", 0, 0, none, none⟩ :=
  payment_fail_open ⟨402, none⟩ ⟨200, none⟩ ⟨1, 0⟩ (fun _ => "sig") rfl (Or.inl rfl)

/-- Claim C10: with a parsed body, a first option and a signer, the bound
check throws if and only if the threshold is 0, or the threshold is
positive and the parsed price is a number strictly greater than it; in
particular a negative threshold, or a positive threshold with an
unparsable (NaN) price, proceeds to sign and retry with no effective
bound. -/
theorem bound_check_characterization
    (req : PaymentRequirement) (accept : PaymentAccept) (limit : DecNum)
    (hhead : req.accepts.head? = some accept) :
    ((∃ e, handlePayment (some req) true limit = .throwErr e) ↔
      (limit.toRat = 0 ∨ (0 < limit.toRat ∧
        ∃ p, parseFloat accept.price = some p ∧ limit.toRat < p.toRat))) ∧
    (limit.toRat < 0 → handlePayment (some req) true limit = .signRetry accept req) ∧
    (0 < limit.toRat → parseFloat accept.price = none →
      handlePayment (some req) true limit = .signRetry accept req) := by
  have hres := handlePayment_resolve req accept limit hhead
  refine ⟨?_, ?_, ?_⟩
  · cases hb : DecNum.zero.blt limit with
    | true =>
      have hpos := (DecNum.pos_iff limit).mp hb
      have hz : limit.isZero = false := DecNum.isZero_eq_false_of_pos hpos
      cases hg : jsGtNum (parseFloat accept.price) limit with
      | true =>
        rw [hb, hg] at hres
        simp at hres
        constructor
        · intro _
          exact Or.inr ⟨hpos, (jsGtNum_true_iff _ _).mp hg⟩
        · intro _
          exact ⟨_, hres⟩
      | false =>
        rw [hb, hg, hz] at hres
        simp at hres
        constructor
        · rintro ⟨e, he⟩
          rw [hres] at he
          exact PayAction.noConfusion he
        · rintro (hz0 | ⟨_, p, hp, hlt⟩)
          · exact absurd hz0 (DecNum.toRat_ne_zero_of_isZero_false hz)
          · have hgt : jsGtNum (parseFloat accept.price) limit = true :=
              (jsGtNum_true_iff _ _).mpr ⟨p, hp, hlt⟩
            rw [hg] at hgt
            exact Bool.noConfusion hgt
    | false =>
      cases hz : limit.isZero with
      | true =>
        rw [hb, hz] at hres
        simp at hres
        constructor
        · intro _
          exact Or.inl ((DecNum.isZero_iff_toRat_eq_zero limit).mp hz)
        · intro _
          exact ⟨_, hres⟩
      | false =>
        rw [hb, hz] at hres
        simp at hres
        constructor
        · rintro ⟨e, he⟩
          rw [hres] at he
          exact PayAction.noConfusion he
        · rintro (hz0 | ⟨hpos, _⟩)
          · exact absurd hz0 (DecNum.toRat_ne_zero_of_isZero_false hz)
          · rw [(DecNum.pos_iff limit).mpr hpos] at hb
            exact Bool.noConfusion hb
  · intro hneg
    have hb : DecNum.zero.blt limit = false := by
      cases hc : DecNum.zero.blt limit with
      | false => rfl
      | true => exact absurd ((DecNum.pos_iff limit).mp hc) (not_lt.mpr hneg.le)
    have hz : limit.isZero = false := by
      cases hc : limit.isZero with
      | false => rfl
      | true =>
        have := (DecNum.isZero_iff_toRat_eq_zero limit).mp hc
        exact absurd this (ne_of_lt hneg)
    rw [hb, hz] at hres
    simpa using hres
  · intro hpos hnan
    have hz : limit.isZero = false := DecNum.isZero_eq_false_of_pos hpos
    have hg : jsGtNum (parseFloat accept.price) limit = false := by
      rw [hnan]
      rfl
    rw [hg, hz] at hres
    simpa using hres

/-- Witness for claim C10: a positive threshold with an unparsable price
string ("free", NaN) proceeds straight to sign-and-retry. -/
theorem bound_check_characterization_witness :
    handlePayment (some reqNaN) true ⟨1, 0⟩ = .signRetry acceptNaN reqNaN :=
  (bound_check_characterization reqNaN acceptNaN ⟨1, 0⟩ rfl).2.2
    ((DecNum.pos_iff ⟨1, 0⟩).mp (by decide)) (by decide)

/-- Claim C3: for every plaintext (including the empty one) and every
32-byte key, with the platform AEAD behaving like AES-GCM on this input
(round-trip law and ciphertext length = plaintext length + 16-byte tag),
`cmekDecrypt (cmekEncrypt p k) k` returns exactly `p`, and the encrypted
blob has the exact layout: version byte `0x01`, then the 12-byte IV, then
the ciphertext immediately followed by the 16-byte GCM tag (so the blob
is `29 + p.length` bytes and its fixed-offset slices recover the IV and
the AEAD output). -/
theorem cmek_roundtrip_and_layout
    (A : AeadGcm) (iv plaintext keyBytes : List Nat)
    (hiv : iv.length = 12)
    (hkey : keyBytes.length = 32)
    (hrt : A.dec iv keyBytes (A.enc iv keyBytes plaintext) = .ok plaintext)
    (hlen : (A.enc iv keyBytes plaintext).length = plaintext.length + 16) :
    cmekDecrypt A (cmekEncrypt A iv plaintext keyBytes) keyBytes = .ok plaintext ∧
    cmekEncrypt A iv plaintext keyBytes =
      VERSION_BYTE :: (iv ++ A.enc iv keyBytes plaintext) ∧
    (cmekEncrypt A iv plaintext keyBytes).headD 0 = 1 ∧
    (cmekEncrypt A iv plaintext keyBytes).length = 1 + 12 + (plaintext.length + 16) ∧
    ((cmekEncrypt A iv plaintext keyBytes).drop 1).take 12 = iv ∧
    (cmekEncrypt A iv plaintext keyBytes).drop 13 = A.enc iv keyBytes plaintext := by
  have hivdrop : ((VERSION_BYTE :: (iv ++ A.enc iv keyBytes plaintext)).drop 1).take 12 = iv := by
    simp only [List.drop_succ_cons, List.drop_zero]
    exact List.take_left' hiv
  have hctdrop : (VERSION_BYTE :: (iv ++ A.enc iv keyBytes plaintext)).drop 13 =
      A.enc iv keyBytes plaintext := by
    simp only [List.drop_succ_cons]
    exact List.drop_left' hiv
  have hlength : (cmekEncrypt A iv plaintext keyBytes).length =
      1 + 12 + (plaintext.length + 16) := by
    simp [cmekEncrypt, hiv, hlen]
    omega
  refine ⟨?_, rfl, rfl, hlength, hivdrop, hctdrop⟩
  unfold cmekDecrypt
  rw [if_neg (by rw [hlength]; simp [IV_LENGTH]; omega), if_neg (by simp [cmekEncrypt, VERSION_BYTE])]
  show (match A.dec (((cmekEncrypt A iv plaintext keyBytes).drop 1).take IV_LENGTH) keyBytes
      ((cmekEncrypt A iv plaintext keyBytes).drop (1 + IV_LENGTH)) with
    | .ok pt => Except.ok pt
    | .error _ => Except.error CmekError.authFail) = Except.ok plaintext
  have h1 : ((cmekEncrypt A iv plaintext keyBytes).drop 1).take IV_LENGTH = iv := hivdrop
  have h2 : (cmekEncrypt A iv plaintext keyBytes).drop (1 + IV_LENGTH) =
      A.enc iv keyBytes plaintext := hctdrop
  rw [h1, h2, hrt]

/-- Witness for claim C3: a two-byte plaintext round-trips through the
envelope with the padding AEAD fixture and a 31-byte blob. -/
theorem cmek_roundtrip_and_layout_witness :
    cmekDecrypt padAead
        (cmekEncrypt padAead (List.replicate 12 0) [104, 105] (List.replicate 32 0))
        (List.replicate 32 0) = .ok [104, 105] ∧
    (cmekEncrypt padAead (List.replicate 12 0) [104, 105] (List.replicate 32 0)).length =
      1 + 12 + (2 + 16) :=
  ⟨(cmek_roundtrip_and_layout padAead (List.replicate 12 0) [104, 105]
      (List.replicate 32 0) (by decide) (by decide) rfl rfl).1,
   (cmek_roundtrip_and_layout padAead (List.replicate 12 0) [104, 105]
      (List.replicate 32 0) (by decide) (by decide) rfl rfl).2.2.2.1⟩

/-- Claim C7: `cmekDecrypt` fails with the format error (`tooShort`,
message "CMEK blob too short") on every blob shorter than 29 bytes; on a
blob of sufficient length whose first byte is not `0x01` it fails with
the version error naming that byte; in both cases no plaintext is
returned.  The checks are sequential, as in cmek.ts lines 78-83: the
length check runs first. -/
theorem cmek_decrypt_error_cases (A : AeadGcm) (blob keyBytes : List Nat) :
    (blob.length < 29 → cmekDecrypt A blob keyBytes = .error .tooShort) ∧
    (29 ≤ blob.length → blob.headD 0 ≠ 1 →
      cmekDecrypt A blob keyBytes = .error (.badVersion (blob.headD 0))) ∧
    ((blob.length < 29 ∨ blob.headD 0 ≠ 1) →
      ∀ pt, cmekDecrypt A blob keyBytes ≠ .ok pt) := by
  have hshort : blob.length < 29 → cmekDecrypt A blob keyBytes = .error .tooShort := by
    intro h
    unfold cmekDecrypt
    rw [if_pos (by simpa [IV_LENGTH] using h)]
  have hver : 29 ≤ blob.length → blob.headD 0 ≠ 1 →
      cmekDecrypt A blob keyBytes = .error (.badVersion (blob.headD 0)) := by
    intro hl hv
    unfold cmekDecrypt
    rw [if_neg (by simp [IV_LENGTH]; omega), if_pos (by simpa [VERSION_BYTE] using hv)]
  refine ⟨hshort, hver, ?_⟩
  rintro (h | h) pt
  · rw [hshort h]
    exact fun hc => Except.noConfusion hc
  · by_cases hl : blob.length < 29
    · rw [hshort hl]
      exact fun hc => Except.noConfusion hc
    · rw [hver (not_lt.mp hl) h]
      exact fun hc => Except.noConfusion hc

/-- Witness for claim C7: a 5-byte blob fails as too short, and a 29-byte
blob with version byte `0x02` fails with the version error naming `2`. -/
theorem cmek_decrypt_error_cases_witness :
    cmekDecrypt padAead (List.replicate 5 0) (List.replicate 32 0) = .error .tooShort ∧
    cmekDecrypt padAead (2 :: List.replicate 28 0) (List.replicate 32 0) =
      .error (.badVersion 2) :=
  ⟨(cmek_decrypt_error_cases padAead (List.replicate 5 0) (List.replicate 32 0)).1
      (by decide),
   (cmek_decrypt_error_cases padAead (2 :: List.replicate 28 0) (List.replicate 32 0)).2.1
      (by decide) (by decide)⟩

/-- Claim C9 (refuted by the code, Node path): `fromBase64` is claimed to
reject every string that is not well-formed standard base64 with a format
error and never return a byte array for malformed input.  On the Node
path (`typeof Buffer !== "undefined"`, the primary runtime for this SDK)
`Buffer.from(b64, "base64")` never rejects: `"$$$$"` (no valid base64
character) silently decodes to an empty buffer and the single character
`"a"` (length 1 mod 4, malformed) silently decodes to an empty buffer.
Only the browser `atob` path rejects such input. -/
theorem fromBase64_node_accepts_malformed :
    fromBase64 true "$$$$" = .ok [] ∧
    fromBase64 true "a" = .ok [] ∧
    fromBase64 false "$$$$" = .error .invalidChar ∧
    fromBase64 false "a" = .error .badLength := by
  refine ⟨rfl, rfl, rfl, rfl⟩

/-- Sanity: the round trip of a well-formed base64 string decodes the same
bytes through both paths ("aGVsbG8=" is "hello"). -/
theorem fromBase64_wellformed_agree :
    fromBase64 true "aGVsbG8=" = .ok [104, 101, 108, 108, 111] ∧
    fromBase64 false "aGVsbG8=" = .ok [104, 101, 108, 108, 111] := by
  refine ⟨rfl, rfl⟩

theorem getElem?_set_cases {α : Type} (l : List α) (i j : Nat) (a c : α)
    (h : (l.set i a)[j]? = some c) :
    (i = j ∧ c = a) ∨ (i ≠ j ∧ l[j]? = some c) := by
  by_cases hij : i = j
  · subst hij
    left
    refine ⟨rfl, ?_⟩
    have hlt : i < l.length := by
      have := (List.getElem?_eq_some_iff.mp h).1
      simpa using this
    rw [List.getElem?_set_self hlt] at h
    exact (Option.some.inj h).symm
  · right
    exact ⟨hij, by rwa [List.getElem?_set_ne hij] at h⟩

/-- Setting a caller to a state that is not `inExchange` and not `doneEx`
cannot break the refresh invariants. -/
theorem Inv_set_inert (s : ClientState) (i : Nat) (c : CallerSt)
    (hin : ∀ h : Nat, c ≠ .inExchange h)
    (hdn : ∀ (h : Nat) (o : ExchangeOutcome), c ≠ .doneEx h o)
    (hInv : Inv s) :
    Inv { s with callers := s.callers.set i c } := by
  obtain ⟨h1, h2, h3⟩ := hInv
  refine ⟨?_, ?_, ?_⟩
  · intro j k hj hk hcj hck
    rcases getElem?_set_cases s.callers i j c _ hcj with ⟨rfl, hceq⟩ | ⟨hnej, holdj⟩
    · exact absurd hceq.symm (hin hj)
    · rcases getElem?_set_cases s.callers i k c _ hck with ⟨rfl, hceq⟩ | ⟨hnek, holdk⟩
      · exact absurd hceq.symm (hin hk)
      · exact h1 j k hj hk holdj holdk
  · intro j h hcj
    rcases getElem?_set_cases s.callers i j c _ hcj with ⟨rfl, hceq⟩ | ⟨hne, hold⟩
    · exact absurd hceq.symm (hin h)
    · exact h2 j h hold
  · intro j h o hcj
    rcases getElem?_set_cases s.callers i j c _ hcj with ⟨rfl, hceq⟩ | ⟨hne, hold⟩
    · exact absurd hceq.symm (hdn h o)
    · exact h3 j h o hold

/-- Installing a fresh refresh handle while none is in flight preserves
the invariants: the new handle is owned by the installing caller and the
appended promise is pending. -/
theorem Inv_install (s : ClientState) (i : Nat)
    (hrefresh : s.refresh = none) (hInv : Inv s) :
    Inv { s with
      refresh := some s.handles.length
      handles := s.handles ++ [none]
      callers := s.callers.set i (.inExchange s.handles.length)
      exchangesStarted := s.exchangesStarted + 1 } := by
  obtain ⟨h1, h2, h3⟩ := hInv
  have hnoEx : ∀ (j h : Nat), ¬ s.callers[j]? = some (.inExchange h) := by
    intro j h hj
    rcases h2 j h hj with ⟨hr, _⟩
    rw [hrefresh] at hr
    exact Option.noConfusion hr
  refine ⟨?_, ?_, ?_⟩
  · intro j k hj hk hcj hck
    rcases getElem?_set_cases s.callers i j _ _ hcj with ⟨rfl, _⟩ | ⟨hnej, holdj⟩
    · rcases getElem?_set_cases s.callers i k _ _ hck with ⟨hik, _⟩ | ⟨hnek, holdk⟩
      · exact hik
      · exact absurd holdk (hnoEx k hk)
    · exact absurd holdj (hnoEx j hj)
  · intro j h hcj
    rcases getElem?_set_cases s.callers i j _ _ hcj with ⟨rfl, hceq⟩ | ⟨hne, hold⟩
    · obtain rfl : h = s.handles.length := CallerSt.inExchange.inj hceq
      refine ⟨rfl, ?_⟩
      simp
    · exact absurd hold (hnoEx j h)
  · intro j h o hcj
    rcases getElem?_set_cases s.callers i j _ _ hcj with ⟨rfl, hceq⟩ | ⟨hne, hold⟩
    · exact CallerSt.noConfusion hceq
    · have hh3 := h3 j h o hold
      have hlt : h < s.handles.length := (List.getElem?_eq_some_iff.mp hh3).1
      rw [List.getElem?_append_left hlt]
      exact hh3

/-- Settling the in-flight exchange preserves the invariants: the owner
completes with the outcome now recorded on its promise, the in-flight
marker is cleared, and every other completed caller's recorded outcome is
untouched (the settled promise was pending, so nobody recorded outcomes
on it). -/
theorem Inv_complete (s : ClientState) (i h : Nat) (o : ExchangeOutcome)
    (hc : s.callers[i]? = some (.inExchange h)) (hInv : Inv s)
    (tok' : Option String) (exp' : Int) :
    Inv { s with
      handles := s.handles.set h (some o)
      token := tok'
      tokenExpiresAt := exp'
      refresh := none
      callers := s.callers.set i (.doneEx h o) } := by
  obtain ⟨h1, h2, h3⟩ := hInv
  refine ⟨?_, ?_, ?_⟩
  · intro j k hj hk hcj hck
    exfalso
    rcases getElem?_set_cases s.callers i j _ _ hcj with ⟨rfl, hceq⟩ | ⟨hne, hold⟩
    · exact CallerSt.noConfusion hceq
    · exact hne ((h1 j i hj h hold hc).symm)
  · intro j h' hcj
    exfalso
    rcases getElem?_set_cases s.callers i j _ _ hcj with ⟨rfl, hceq⟩ | ⟨hne, hold⟩
    · exact CallerSt.noConfusion hceq
    · exact hne ((h1 j i h' h hold hc).symm)
  · intro j h' o' hcj
    rcases getElem?_set_cases s.callers i j _ _ hcj with ⟨rfl, hceq⟩ | ⟨hne, hold⟩
    · injection hceq with hh ho
      subst hh
      subst ho
      have hlt : h' < s.handles.length :=
        (List.getElem?_eq_some_iff.mp (h2 i h' hc).2).1
      rw [List.getElem?_set_self hlt]
    · have hh3 := h3 j h' o' hold
      by_cases hhh : h = h'
      · subst hhh
        have hpend := (h2 i h hc).2
        rw [hpend] at hh3
        exact Option.noConfusion (Option.some.inj hh3)
      · rw [List.getElem?_set_ne hhh]
        exact hh3

/-- Waking a waiter of a settled promise preserves the invariants: it
completes with exactly the outcome recorded on the shared promise. -/
theorem Inv_wake (s : ClientState) (i h : Nat) (o : ExchangeOutcome)
    (hc : s.callers[i]? = some (.waiting h)) (hh : s.handles[h]? = some (some o))
    (hInv : Inv s) :
    Inv { s with callers := s.callers.set i (.doneEx h o) } := by
  obtain ⟨h1, h2, h3⟩ := hInv
  refine ⟨?_, ?_, ?_⟩
  · intro j k hj hk hcj hck
    rcases getElem?_set_cases s.callers i j _ _ hcj with ⟨rfl, hceq⟩ | ⟨hnej, holdj⟩
    · exact CallerSt.noConfusion hceq
    · rcases getElem?_set_cases s.callers i k _ _ hck with ⟨rfl, hceq⟩ | ⟨hnek, holdk⟩
      · exact CallerSt.noConfusion hceq
      · exact h1 j k hj hk holdj holdk
  · intro j h' hcj
    rcases getElem?_set_cases s.callers i j _ _ hcj with ⟨rfl, hceq⟩ | ⟨hne, hold⟩
    · exact CallerSt.noConfusion hceq
    · exact h2 j h' hold
  · intro j h' o' hcj
    rcases getElem?_set_cases s.callers i j _ _ hcj with ⟨rfl, hceq⟩ | ⟨hne, hold⟩
    · obtain ⟨rfl, rfl⟩ : h' = h ∧ o' = o := by
        injection hceq with hh' ho'
        exact ⟨hh', ho'⟩
      exact hh
    · exact h3 j h' o' hold

/-- Every scheduler step preserves the refresh invariants. -/
theorem stepFn_preserves_Inv (s : ClientState) (a : Act) (hInv : Inv s) :
    Inv (stepFn s a) := by
  cases a with
  | tick d => exact hInv
  | start i =>
    rcases hc : s.callers[i]? with _ | c
    · simp only [stepFn, hc]
      exact hInv
    · cases c with
      | idle =>
        by_cases hcr : s.hasCreds = false
        · simp only [stepFn, hc, if_pos hcr]
          exact Inv_set_inert s i .doneFast (fun _ => CallerSt.noConfusion)
            (fun _ _ => CallerSt.noConfusion) hInv
        · by_cases hf : tokenFresh s = true
          · simp only [stepFn, hc, if_neg hcr, if_pos hf]
            exact Inv_set_inert s i .doneFast (fun _ => CallerSt.noConfusion)
              (fun _ _ => CallerSt.noConfusion) hInv
          · rcases hr : s.refresh with _ | h
            · simp only [stepFn, hc, if_neg hcr, if_neg hf, hr]
              exact Inv_install s i hr hInv
            · simp only [stepFn, hc, if_neg hcr, if_neg hf, hr]
              rw [← hr]
              exact Inv_set_inert s i (.waiting h) (fun _ => CallerSt.noConfusion)
                (fun _ _ => CallerSt.noConfusion) hInv
      | waiting h =>
        simp only [stepFn, hc]
        exact hInv
      | inExchange h =>
        simp only [stepFn, hc]
        exact hInv
      | doneFast =>
        simp only [stepFn, hc]
        exact hInv
      | doneEx h o =>
        simp only [stepFn, hc]
        exact hInv
  | complete i o =>
    rcases hc : s.callers[i]? with _ | c
    · simp only [stepFn, hc]
      exact hInv
    · cases c with
      | inExchange h =>
        cases o with
        | success tok ei =>
          simp only [stepFn, hc]
          exact Inv_complete s i h (.success tok ei) hc hInv (some tok) (s.now + ei * 1000)
        | failure st =>
          simp only [stepFn, hc]
          exact Inv_complete s i h (.failure st) hc hInv s.token s.tokenExpiresAt
      | idle =>
        simp only [stepFn, hc]
        exact hInv
      | waiting h =>
        simp only [stepFn, hc]
        exact hInv
      | doneFast =>
        simp only [stepFn, hc]
        exact hInv
      | doneEx h o' =>
        simp only [stepFn, hc]
        exact hInv
  | wake i =>
    rcases hc : s.callers[i]? with _ | c
    · simp only [stepFn, hc]
      exact hInv
    · cases c with
      | waiting h =>
        rcases hh : s.handles[h]? with _ | oo
        · simp only [stepFn, hc, hh]
          exact hInv
        · cases oo with
          | none =>
            simp only [stepFn, hc, hh]
            exact hInv
          | some o =>
            simp only [stepFn, hc, hh]
            exact Inv_wake s i h o hc hh hInv
      | idle =>
        simp only [stepFn, hc]
        exact hInv
      | inExchange h =>
        simp only [stepFn, hc]
        exact hInv
      | doneFast =>
        simp only [stepFn, hc]
        exact hInv
      | doneEx h o' =>
        simp only [stepFn, hc]
        exact hInv

/-- Running any interleaving preserves the refresh invariants. -/
theorem run_preserves_Inv (s₀ : ClientState) (l : List Act) (h : Inv s₀) :
    Inv (run s₀ l) := by
  induction l generalizing s₀ with
  | nil => exact h
  | cons a t ih => exact ih (stepFn s₀ a) (stepFn_preserves_Inv s₀ a h)

/-- The initial state satisfies the refresh invariants. -/
theorem initState_Inv (hasCreds : Bool) (token : Option String)
    (expiry now : Int) (n : Nat) :
    Inv (initState hasCreds token expiry now n) := by
  refine ⟨?_, ?_, ?_⟩
  · intro i j hi hj hci hcj
    exact CallerSt.noConfusion (List.eq_of_mem_replicate (List.getElem?_mem hci))
  · intro i h hci
    exact CallerSt.noConfusion (List.eq_of_mem_replicate (List.getElem?_mem hci))
  · intro i h o hci
    exact CallerSt.noConfusion (List.eq_of_mem_replicate (List.getElem?_mem hci))

/-- Claim C1: in every state reachable by any interleaving of concurrent
`ensureValid()`/`ensureToken()` calls: (1) at most one token-exchange
network call is in flight at a time; (2) any two callers that completed
through the same refresh observed the same outcome (the same installed
token on success, the same propagated rejection on failure); (3) a caller
entering `ensureToken` with exchange credentials configured and no
sufficiently-fresh token while a refresh `h` is in flight awaits that
same shared pending handle (`refreshPromise`) and starts no second
exchange; (4) entering when no refresh is in flight installs a fresh
shared handle and starts exactly one exchange; (5) a waiter of a settled
refresh observes exactly the outcome recorded on the shared handle. -/
theorem single_flight_refresh
    (hasCreds : Bool) (token : Option String) (expiry now : Int) (n : Nat)
    (s : ClientState)
    (hreach : Reachable (initState hasCreds token expiry now n) s) :
    AtMostOneInFlight s ∧
    (∀ (i j h : Nat) (o₁ o₂ : ExchangeOutcome),
      s.callers[i]? = some (.doneEx h o₁) → s.callers[j]? = some (.doneEx h o₂) →
      o₁ = o₂) ∧
    (∀ (i h : Nat), s.callers[i]? = some .idle → s.hasCreds = true →
      tokenFresh s = false → s.refresh = some h →
      (stepFn s (.start i)).callers[i]? = some (.waiting h) ∧
      (stepFn s (.start i)).exchangesStarted = s.exchangesStarted) ∧
    (∀ i : Nat, s.callers[i]? = some .idle → s.hasCreds = true →
      tokenFresh s = false → s.refresh = none →
      (stepFn s (.start i)).refresh = some s.handles.length ∧
      (stepFn s (.start i)).callers[i]? = some (.inExchange s.handles.length) ∧
      (stepFn s (.start i)).exchangesStarted = s.exchangesStarted + 1) ∧
    (∀ (i h : Nat) (o : ExchangeOutcome),
      s.callers[i]? = some (.waiting h) → s.handles[h]? = some (some o) →
      (stepFn s (.wake i)).callers[i]? = some (.doneEx h o)) := by
  obtain ⟨h1, h2, h3⟩ : Inv s := by
    obtain ⟨l, rfl⟩ := hreach
    exact run_preserves_Inv _ l (initState_Inv hasCreds token expiry now n)
  refine ⟨h1, ?_, ?_, ?_, ?_⟩
  · intro i j h o₁ o₂ hi hj
    have e1 := h3 i h o₁ hi
    have e2 := h3 j h o₂ hj
    rw [e1] at e2
    exact Option.some.inj (Option.some.inj e2)
  · intro i h hidle hcr hfr hr
    have hlt : i < s.callers.length := (List.getElem?_eq_some_iff.mp hidle).1
    have hcrF : ¬ s.hasCreds = false := by simp [hcr]
    have hfrF : ¬ tokenFresh s = true := by simp [hfr]
    constructor
    · simp only [stepFn, hidle, if_neg hcrF, if_neg hfrF, hr]
      exact List.getElem?_set_self hlt
    · simp only [stepFn, hidle, if_neg hcrF, if_neg hfrF, hr]
  · intro i hidle hcr hfr hr
    have hlt : i < s.callers.length := (List.getElem?_eq_some_iff.mp hidle).1
    have hcrF : ¬ s.hasCreds = false := by simp [hcr]
    have hfrF : ¬ tokenFresh s = true := by simp [hfr]
    refine ⟨?_, ?_, ?_⟩
    · simp only [stepFn, hidle, if_neg hcrF, if_neg hfrF, hr]
    · simp only [stepFn, hidle, if_neg hcrF, if_neg hfrF, hr]
      exact List.getElem?_set_self hlt
    · simp only [stepFn, hidle, if_neg hcrF, if_neg hfrF, hr]
  · intro i h o hw hh
    have hlt : i < s.callers.length := (List.getElem?_eq_some_iff.mp hw).1
    simp only [stepFn, hw, hh]
    exact List.getElem?_set_self hlt

/-- Witness for claim C1: after two concurrent `ensureToken` entries from
a fresh two-caller client, at most one exchange is in flight, the second
caller joined handle 0, and exactly one exchange was started. -/
theorem single_flight_refresh_witness :
    AtMostOneInFlight (run (initState true none 0 1000 2) [.start 0, .start 1]) ∧
    (run (initState true none 0 1000 2) [.start 0, .start 1]).callers[1]? =
      some (.waiting 0) ∧
    (run (initState true none 0 1000 2) [.start 0, .start 1]).exchangesStarted = 1 :=
  ⟨(single_flight_refresh true none 0 1000 2 _ ⟨[.start 0, .start 1], rfl⟩).1,
   by decide, by decide⟩

/-- Claim C5 as stated is refuted at status 500: the error propagated by a
failed credential exchange (src/http.ts line 83) is a plain `Error` whose
message names the HTTP status; it has no `type` property and its `name`
is not `"AuthError"`, so it is not an AuthFailure-kind error in the sense
of `AuthError` (`type = "auth_error"`, errors.ts lines 131-136). -/
theorem refresh_failure_not_auth_kind :
    propagatedError (.failure 500) = some (refreshFailureError 500) ∧
    isAuthFailureKind (refreshFailureError 500) = false ∧
    (refreshFailureError 500).name ≠ "AuthError" ∧
    (refreshFailureError 500).message = "Agent token refresh failed: HTTP 500" ∧
    isAuthFailureKind (mkAuthError "unauthorized") = true := by
  refine ⟨rfl, rfl, by decide, rfl, rfl⟩

/-- Claim C5 (amended): when the exchange endpoint returns a non-success
status `st` to the in-flight refresh, the triggering caller observes the
propagated rejection - a plain `Error` naming the status, not an
AuthFailure-kind (`auth_error`) value - the in-flight `refreshPromise` is
cleared, the cached token and expiry are unchanged, and a subsequent
idle caller entering `ensureToken` with credentials configured and stale
state starts a fresh exchange (no automatic retry loop inside the
store). -/
theorem refresh_failure_propagates
    (s : ClientState) (i h : Nat) (st : Nat)
    (hc : s.callers[i]? = some (.inExchange h)) :
    (stepFn s (.complete i (.failure st))).token = s.token ∧
    (stepFn s (.complete i (.failure st))).tokenExpiresAt = s.tokenExpiresAt ∧
    (stepFn s (.complete i (.failure st))).refresh = none ∧
    (stepFn s (.complete i (.failure st))).callers[i]? =
      some (.doneEx h (.failure st)) ∧
    propagatedError (.failure st) = some (refreshFailureError st) ∧
    isAuthFailureKind (refreshFailureError st) = false ∧
    (∀ j : Nat,
      (stepFn s (.complete i (.failure st))).callers[j]? = some .idle →
      s.hasCreds = true →
      tokenFresh (stepFn s (.complete i (.failure st))) = false →
      (stepFn (stepFn s (.complete i (.failure st))) (.start j)).exchangesStarted =
        (stepFn s (.complete i (.failure st))).exchangesStarted + 1) := by
  have hlt : i < s.callers.length := (List.getElem?_eq_some_iff.mp hc).1
  refine ⟨?_, ?_, ?_, ?_, rfl, rfl, ?_⟩
  · simp only [stepFn, hc]
  · simp only [stepFn, hc]
  · simp only [stepFn, hc]
  · simp only [stepFn, hc]
    exact List.getElem?_set_self hlt
  · intro j hj hcr hfr
    have hcrF : ¬ (stepFn s (.complete i (.failure st))).hasCreds = false := by
      have hh : (stepFn s (.complete i (.failure st))).hasCreds = s.hasCreds := by
        simp only [stepFn, hc]
      rw [hh, hcr]
      simp
    have hfrF : ¬ tokenFresh (stepFn s (.complete i (.failure st))) = true := by
      simp [hfr]
    have hrn : (stepFn s (.complete i (.failure st))).refresh = none := by
      simp only [stepFn, hc]
    generalize hgen : stepFn s (.complete i (.failure st)) = s' at hj hcrF hfrF hrn ⊢
    simp only [stepFn, hj, if_neg hcrF, if_neg hfrF, hrn]

/-- Witness for claim C5: a single caller starts the exchange from a fresh
client; the exchange fails with HTTP 500; the refresh marker is cleared
and the caller holds the failure outcome. -/
theorem refresh_failure_propagates_witness :
    (stepFn (run (initState true none 0 1000 1) [.start 0])
        (.complete 0 (.failure 500))).refresh = none ∧
    (stepFn (run (initState true none 0 1000 1) [.start 0])
        (.complete 0 (.failure 500))).callers[0]? =
      some (.doneEx 0 (.failure 500)) :=
  ⟨(refresh_failure_propagates (run (initState true none 0 1000 1) [.start 0])
      0 0 500 (by decide)).2.2.1,
   (refresh_failure_propagates (run (initState true none 0 1000 1) [.start 0])
      0 0 500 (by decide)).2.2.2.1⟩

/-- Any token whose structure fails to parse yields `decodeExpiry = 0`
(src/http.ts lines 52-61: wrong part count, a throw swallowed by the
`catch`, or a non-number `exp`). -/
theorem decodeExpiry_eq_zero (atobF : String → Option String)
    (jsonExpF : String → Option JsExpVal) (jwt : String)
    (hbad : ¬ jwtExpParses atobF jsonExpF jwt) :
    decodeExpiry atobF jsonExpF jwt = 0 := by
  by_cases h3 : (splitOnDot jwt.data).length = 3
  · simp only [decodeExpiry, if_neg (not_not_intro h3)]
    rcases ha : atobF (String.mk (((splitOnDot jwt.data).getD 1 []).map
        (fun c => if c = '-' then '+' else if c = '_' then '/' else c))) with _ | payload
    · rfl
    · rcases hj : jsonExpF payload with _ | v
      · simp only [hj]
      · cases v with
        | num e => exact absurd ⟨h3, payload, e, ha, hj⟩ hbad
        | other => simp only [hj]
  · simp only [decodeExpiry, if_pos h3]

/-- Claim C6: for every token string whose structure cannot be parsed as a
JWT with a numeric `exp` claim (wrong number of dot-separated parts,
undecodable payload, or non-number `exp`), `setToken` records expiry `0`;
consequently the freshness check fails at any non-negative clock, and the
very next `ensureToken` entry with exchange credentials configured
performs a refresh instead of trusting the cached token: the caller never
fast-returns - it joins the in-flight refresh if one exists, and
otherwise installs a fresh one, starting exactly one new exchange. -/
theorem unparsable_token_immediately_stale
    (atobF : String → Option String) (jsonExpF : String → Option JsExpVal)
    (jwt : String) (s : ClientState) (i : Nat)
    (hbad : ¬ jwtExpParses atobF jsonExpF jwt)
    (hnow : 0 ≤ s.now) (hcreds : s.hasCreds = true)
    (hidle : s.callers[i]? = some .idle) :
    (setToken atobF jsonExpF s jwt).tokenExpiresAt = 0 ∧
    tokenFresh (setToken atobF jsonExpF s jwt) = false ∧
    (stepFn (setToken atobF jsonExpF s jwt) (.start i)).callers[i]? ≠
      some .doneFast ∧
    ((∃ h : Nat, s.refresh = some h ∧
        (stepFn (setToken atobF jsonExpF s jwt) (.start i)).callers[i]? =
          some (.waiting h)) ∨
      (s.refresh = none ∧
        (stepFn (setToken atobF jsonExpF s jwt) (.start i)).callers[i]? =
          some (.inExchange s.handles.length) ∧
        (stepFn (setToken atobF jsonExpF s jwt) (.start i)).exchangesStarted =
          s.exchangesStarted + 1)) := by
  have hexp : (setToken atobF jsonExpF s jwt).tokenExpiresAt = 0 :=
    decodeExpiry_eq_zero atobF jsonExpF jwt hbad
  have hfr : tokenFresh (setToken atobF jsonExpF s jwt) = false := by
    unfold tokenFresh
    rw [hexp]
    have hd : decide ((setToken atobF jsonExpF s jwt).now <
        0 - REFRESH_BUFFER_MS) = false := by
      apply decide_eq_false
      have : (setToken atobF jsonExpF s jwt).now = s.now := rfl
      rw [this]
      simp only [REFRESH_BUFFER_MS]
      omega
    rw [hd, Bool.and_false]
  have hidle' : (setToken atobF jsonExpF s jwt).callers[i]? = some .idle := hidle
  have hlt : i < s.callers.length := (List.getElem?_eq_some_iff.mp hidle).1
  have hlt' : i < (setToken atobF jsonExpF s jwt).callers.length := hlt
  have hcrF : ¬ (setToken atobF jsonExpF s jwt).hasCreds = false := by
    simp [setToken, hcreds]
  have hfrF : ¬ tokenFresh (setToken atobF jsonExpF s jwt) = true := by
    simp [hfr]
  refine ⟨hexp, hfr, ?_, ?_⟩
  · rcases hr : s.refresh with _ | h
    · have hr' : (setToken atobF jsonExpF s jwt).refresh = none := hr
      simp only [stepFn, hidle', if_neg hcrF, if_neg hfrF, hr']
      rw [List.getElem?_set_self hlt']
      intro hcon
      exact CallerSt.noConfusion (Option.some.inj hcon)
    · have hr' : (setToken atobF jsonExpF s jwt).refresh = some h := hr
      simp only [stepFn, hidle', if_neg hcrF, if_neg hfrF, hr']
      rw [List.getElem?_set_self hlt']
      intro hcon
      exact CallerSt.noConfusion (Option.some.inj hcon)
  · rcases hr : s.refresh with _ | h
    · right
      have hr' : (setToken atobF jsonExpF s jwt).refresh = none := hr
      refine ⟨rfl, ?_, ?_⟩
      · simp only [stepFn, hidle', if_neg hcrF, if_neg hfrF, hr']
        exact List.getElem?_set_self hlt'
      · simp only [stepFn, hidle', if_neg hcrF, if_neg hfrF, hr']
        rfl
    · left
      have hr' : (setToken atobF jsonExpF s jwt).refresh = some h := hr
      refine ⟨h, rfl, ?_⟩
      simp only [stepFn, hidle', if_neg hcrF, if_neg hfrF, hr']
      exact List.getElem?_set_self hlt'

/-- Witness for claim C6: a structurally invalid token ("not-a-jwt", one
dot-part) yields expiry 0 and the next `ensureToken` entry starts a
refresh exchange. -/
theorem unparsable_token_immediately_stale_witness :
    (setToken (fun _ => none) (fun _ => none)
        (initState true none 0 1000 1) "not-a-jwt").tokenExpiresAt = 0 ∧
    tokenFresh (setToken (fun _ => none) (fun _ => none)
        (initState true none 0 1000 1) "not-a-jwt") = false :=
  ⟨(unparsable_token_immediately_stale (fun _ => none) (fun _ => none) "not-a-jwt"
      (initState true none 0 1000 1) 0 (fun hp => absurd hp.1 (by decide))
      (by decide) rfl rfl).1,
   (unparsable_token_immediately_stale (fun _ => none) (fun _ => none) "not-a-jwt"
      (initState true none 0 1000 1) 0 (fun hp => absurd hp.1 (by decide))
      (by decide) rfl rfl).2.1⟩

end OneclawSdk
